import Mathlib

/-!
Verification of the profile export pipeline of the bk_python_demo
repository (src/services/patch.py) against its specification.

The development shallowly embeds the pipeline:
- the status classifier of PyroscopePprofHTTPExporter.upload once,
- the tenacity retry driver as configured in the constructor,
- the multipart form-data packager,
- the query-string assembly (urllib.parse.urlencode with quote_plus),
- a gzip codec (the compression step delegates to the Python standard
  library, so the codec is modelled from the specification, RFC 1951
  stored blocks inside RFC 1952 framing),
- the export orchestration and the exporter installer.

Byte strings are List Nat (one entry per byte); machine integers do not
occur in the pipeline except as HTTP status codes, modelled as Nat.
-/

set_option maxRecDepth 4000

namespace BkPyro

/-- Byte view of an ASCII string literal: one byte per character code. -/
def bytes (s : String) : List Nat :=
  s.toList.map Char.toNat

/-! ## Status classifier (upload once, patch.py lines 178-189) -/

/-- Outcome of one HTTP attempt as signalled by the source: a normal
return for 2xx, tenacity.TryAgain for a retryable status, and
exporter.ExportError with a message for a terminal status. -/
inductive Outcome where
  | success : Outcome
  | tryAgain : Outcome
  | exportError : String → Outcome
deriving DecidableEq

/-- Status classification of upload once: mirrors the if-chain
after the response is read in patch.py lines 178-189. -/
def classifyStatus (url : String) (status : Nat) : Outcome :=
  if 200 ≤ status ∧ status < 300 then Outcome.success
  else if 500 ≤ status then Outcome.tryAgain
  else if status = 400 then Outcome.exportError "Server returned 400, check your API key."
  else if status = 404 then Outcome.exportError "Server returned 404, check your endpoint path."
  else Outcome.exportError ("POST to " ++ url ++ ", but got " ++ toString status)

/-- C1 (counterexample): the claim says a status of 600 or more yields a
TerminalFailure with a generic message; the source tests 500 <= status
with no upper bound, so status 600 raises tenacity.TryAgain (a
RetryableFailure), which is not an ExportError. -/
theorem c1_counterexample :
    classifyStatus "http://pyro" 600 = Outcome.tryAgain ∧
    Outcome.tryAgain ≠ Outcome.exportError "POST to http://pyro, but got 600" := by
  refine ⟨rfl, fun h => Outcome.noConfusion h⟩

/-- C1 (amended): a status in 200-299 yields Success; every status of
500 or more (not only 500-599) yields RetryableFailure; status 400
yields the terminal message naming the API key; status 404 yields the
terminal message naming the endpoint path; every remaining status
yields the generic terminal message built from the URL and the status. -/
theorem c1_status_classification (url : String) (s : Nat) :
    (200 ≤ s ∧ s < 300 → classifyStatus url s = Outcome.success) ∧
    (500 ≤ s → classifyStatus url s = Outcome.tryAgain) ∧
    (classifyStatus url 400 = Outcome.exportError "Server returned 400, check your API key.") ∧
    (classifyStatus url 404 = Outcome.exportError "Server returned 404, check your endpoint path.") ∧
    (¬(200 ≤ s ∧ s < 300) → s < 500 → s ≠ 400 → s ≠ 404 →
      classifyStatus url s = Outcome.exportError ("POST to " ++ url ++ ", but got " ++ toString s)) := by
  refine ⟨?_, ?_, rfl, rfl, ?_⟩
  · intro h
    simp [classifyStatus, h]
  · intro h
    have h2 : ¬(200 ≤ s ∧ s < 300) := by omega
    simp [classifyStatus, h2, h]
  · intro h1 h2 h3 h4
    have h5 : ¬ 500 ≤ s := by omega
    simp [classifyStatus, h1, h5, h3, h4]

/-- C1 (witness): instantiation of the amended classification at the
redirect status 301, which lands in the generic terminal branch. -/
theorem c1_witness :
    classifyStatus "http://pyro" 301 = Outcome.exportError "POST to http://pyro, but got 301" := by
  exact (c1_status_classification "http://pyro" 301).2.2.2.2 (by decide) (by decide)
    (by decide) (by decide)

/-! ## Retry driver (tenacity.Retrying as configured in the constructor,
patch.py lines 92-98: stop after delay max retry delay, retry on
http.client.HTTPException, OSError and IOError, retry error class
UploadFailed; tenacity additionally always retries TryAgain). -/

/-- Observable behaviour of the transport during one attempt of
upload once: either the HTTP request raises a transport exception
(HTTPException, OSError, IOError) or a response with a status arrives. -/
inductive AttemptEvent where
  | netFail : AttemptEvent
  | response : Nat → AttemptEvent
deriving DecidableEq

/-- Exception produced by one attempt of upload once, as seen by the
tenacity driver. -/
inductive UploadExc where
  | netExc : UploadExc
  | tryAgainExc : UploadExc
  | exportErr : String → UploadExc
deriving DecidableEq

/-- One attempt of upload once: a transport failure surfaces as the
transport exception; a response is classified, where a 2xx returns,
statuses of 500 and above raise TryAgain, and the remaining statuses
raise ExportError with the classified message. -/
def uploadOnce (url : String) (ev : AttemptEvent) : Except UploadExc Unit :=
  match ev with
  | AttemptEvent.netFail => Except.error UploadExc.netExc
  | AttemptEvent.response s =>
    match classifyStatus url s with
    | Outcome.success => Except.ok ()
    | Outcome.tryAgain => Except.error UploadExc.tryAgainExc
    | Outcome.exportError m => Except.error (UploadExc.exportErr m)

/-- The retry predicate of the configured driver: the transport
exceptions match retry if exception type((HTTPException, OSError,
IOError)), and tenacity treats TryAgain as an explicit retry request;
ExportError matches neither and is re-raised. -/
def isRetryableExc : UploadExc → Bool
  | UploadExc.netExc => true
  | UploadExc.tryAgainExc => true
  | UploadExc.exportErr _ => false

/-- Result of one run of the configured tenacity driver. -/
inductive RetryResult where
  | success : RetryResult
  | raised : UploadExc → RetryResult
  | uploadFailed : UploadExc → RetryResult
deriving DecidableEq

/-- One run of the configured tenacity driver over a trace of attempt
events paired with the wall-clock seconds elapsed since the first
attempt, measured when the attempt finishes. After a failing attempt
the driver re-raises a non-retryable exception, and otherwise consults
the stop condition stop after delay(budget): if the elapsed time has
reached the budget it raises UploadFailed carrying the last attempt,
else it sleeps and retries. Returns none when the trace is too short
to finish the run. -/
def retryDrive (url : String) (budget : Nat) :
    List (AttemptEvent × Nat) → Option RetryResult
  | [] => none
  | (ev, elapsed) :: rest =>
    match uploadOnce url ev with
    | Except.ok _ => some RetryResult.success
    | Except.error e =>
      if isRetryableExc e then
        if budget ≤ elapsed then some (RetryResult.uploadFailed e)
        else retryDrive url budget rest
      else some (RetryResult.raised e)

/-- Number of attempts the driver consumes from a trace. -/
def retryAttempts (url : String) (budget : Nat) :
    List (AttemptEvent × Nat) → Nat
  | [] => 0
  | (ev, elapsed) :: rest =>
    match uploadOnce url ev with
    | Except.ok _ => 1
    | Except.error e =>
      if isRetryableExc e then
        if budget ≤ elapsed then 1
        else 1 + retryAttempts url budget rest
      else 1

/-- C3 (counterexample): the claim says a retry happens only after a
network-transport failure or a 5xx status; in the source a response
with status 600 (neither) also raises TryAgain, so a second attempt is
made after it: the driver consumes two attempts from this trace and
succeeds on the second. -/
theorem c3_counterexample :
    retryAttempts "http://pyro" 3
        [(AttemptEvent.response 600, 0), (AttemptEvent.response 200, 1)] = 2 ∧
    retryDrive "http://pyro" 3
        [(AttemptEvent.response 600, 0), (AttemptEvent.response 200, 1)] =
      some RetryResult.success := by
  refine ⟨rfl, rfl⟩

/-- C3 (amended): in every run of the retry driver, a second or later
attempt happens only when the preceding attempt was a network-transport
failure or a response whose status is 500 or above (the statuses the
source classifies RetryableFailure); in particular an attempt whose
response status lies in 400-499 is never followed by another attempt. -/
theorem c3_retry_only_on_retryable (url : String) (budget : Nat)
    (tr : List (AttemptEvent × Nat)) (i : Nat)
    (h : i + 1 < retryAttempts url budget tr) :
    ∃ p, tr[i]? = some p ∧
      (p.1 = AttemptEvent.netFail ∨ ∃ s, p.1 = AttemptEvent.response s ∧ 500 ≤ s) := by
  induction tr generalizing i with
  | nil => simp [retryAttempts] at h
  | cons hd tl ih =>
    obtain ⟨ev, elapsed⟩ := hd
    cases ev with
    | netFail =>
      by_cases hb : budget ≤ elapsed
      · simp [retryAttempts, uploadOnce, isRetryableExc, hb] at h
      · cases i with
        | zero => exact ⟨(AttemptEvent.netFail, elapsed), by simp, Or.inl rfl⟩
        | succ j =>
          have h2 : j + 1 < retryAttempts url budget tl := by
            simp [retryAttempts, uploadOnce, isRetryableExc, hb] at h
            omega
          obtain ⟨p, hp, hcond⟩ := ih j h2
          exact ⟨p, by simpa using hp, hcond⟩
    | response s =>
      by_cases h2xx : 200 ≤ s ∧ s < 300
      · simp [retryAttempts, uploadOnce, classifyStatus, h2xx] at h
      · by_cases h5xx : 500 ≤ s
        · by_cases hb : budget ≤ elapsed
          · simp [retryAttempts, uploadOnce, classifyStatus, h2xx, h5xx,
              isRetryableExc, hb] at h
          · cases i with
            | zero =>
              exact ⟨(AttemptEvent.response s, elapsed), by simp, Or.inr ⟨s, rfl, h5xx⟩⟩
            | succ j =>
              have h3 : j + 1 < retryAttempts url budget tl := by
                simp [retryAttempts, uploadOnce, classifyStatus, h2xx, h5xx,
                  isRetryableExc, hb] at h
                omega
              obtain ⟨p, hp, hcond⟩ := ih j h3
              exact ⟨p, by simpa using hp, hcond⟩
        · exfalso
          by_cases h400 : s = 400
          · simp [retryAttempts, uploadOnce, classifyStatus, h2xx, h5xx, h400,
              isRetryableExc] at h
          · by_cases h404 : s = 404
            · simp [retryAttempts, uploadOnce, classifyStatus, h2xx, h5xx, h400,
                h404, isRetryableExc] at h
            · simp [retryAttempts, uploadOnce, classifyStatus, h2xx, h5xx, h400,
                h404, isRetryableExc] at h

/-- C3 (witness): after a first attempt that fails in the transport,
within budget, a second attempt occurs, and the amended theorem
recovers that the first event was a network failure. -/
theorem c3_witness :
    ∃ p, ([(AttemptEvent.netFail, 0), (AttemptEvent.response 200, 1)][0]? = some p ∧
      (p.1 = AttemptEvent.netFail ∨ ∃ s, p.1 = AttemptEvent.response s ∧ 500 ≤ s)) := by
  exact c3_retry_only_on_retryable "http://pyro" 3
    [(AttemptEvent.netFail, 0), (AttemptEvent.response 200, 1)] 0 (by decide)

/-! ## Exporter configuration (constructor, patch.py lines 77-98) -/

/-- Configuration stored by the PyroscopePprofHTTPExporter constructor. -/
structure ExporterConfig where
  service_name : String
  token : String
  endpoint : String
  max_retry_delay : Nat
  enable_code_provenance : Bool
deriving DecidableEq

/-- PyroscopePprofHTTPExporter constructed with the default keyword
arguments: max retry delay 3 and code provenance disabled. -/
def mkExporter (service_name token endpoint : String) : ExporterConfig :=
  { service_name := service_name
    token := token
    endpoint := endpoint
    max_retry_delay := 3
    enable_code_provenance := false }

/-- C5: the retry budget defaults to 3 seconds via max retry delay, and
whenever the driver stops because the elapsed wall-clock time reached
the budget without a successful attempt, it raises UploadFailed
carrying exactly the exception of the final attempt, which is a
retryable one; a non-retryable (terminal) exception is instead
re-raised as itself by the attempt that produced it. In both cases the
surfaced failure is the last captured one, never a generic timeout. -/
theorem c5_budget_exhaustion_last_failure
    (service token endpoint url : String) (budget : Nat)
    (tr : List (AttemptEvent × Nat)) (e : UploadExc) :
    (mkExporter service token endpoint).max_retry_delay = 3 ∧
    (retryDrive url budget tr = some (RetryResult.uploadFailed e) →
      isRetryableExc e = true ∧ ∃ i p, tr[i]? = some p ∧
        uploadOnce url p.1 = Except.error e ∧ budget ≤ p.2 ∧
        retryAttempts url budget tr = i + 1) ∧
    (retryDrive url budget tr = some (RetryResult.raised e) →
      isRetryableExc e = false ∧ ∃ i p, tr[i]? = some p ∧
        uploadOnce url p.1 = Except.error e ∧
        retryAttempts url budget tr = i + 1) := by
  refine ⟨rfl, ?_⟩
  induction tr with
  | nil => constructor <;> intro h <;> simp [retryDrive] at h
  | cons hd tl ih =>
    obtain ⟨ev, elapsed⟩ := hd
    rcases h_up : uploadOnce url ev with e' | u
    · by_cases hr : isRetryableExc e' = true
      · by_cases hb : budget ≤ elapsed
        · constructor
          · intro h
            simp [retryDrive, h_up, hr, hb] at h
            subst h
            exact ⟨hr, 0, (ev, elapsed), by simp, h_up, hb,
              by simp [retryAttempts, h_up, hr, hb]⟩
          · intro h
            simp [retryDrive, h_up, hr, hb] at h
        · constructor
          · intro h
            simp only [retryDrive, h_up, hr, if_true, if_neg hb] at h
            obtain ⟨hre, i, p, hp, hupe, hbp, hcount⟩ := (ih).1 h
            refine ⟨hre, i + 1, p, by simpa using hp, hupe, hbp, ?_⟩
            simp [retryAttempts, h_up, hr, hb, hcount]
            omega
          · intro h
            simp only [retryDrive, h_up, hr, if_true, if_neg hb] at h
            obtain ⟨hre, i, p, hp, hupe, hcount⟩ := (ih).2 h
            refine ⟨hre, i + 1, p, by simpa using hp, hupe, ?_⟩
            simp [retryAttempts, h_up, hr, hb, hcount]
            omega
      · have hr2 : isRetryableExc e' = false := by
          revert hr; cases isRetryableExc e' <;> simp
        constructor
        · intro h
          simp [retryDrive, h_up, hr2] at h
        · intro h
          simp [retryDrive, h_up, hr2] at h
          subst h
          exact ⟨hr2, 0, (ev, elapsed), by simp, h_up,
            by simp [retryAttempts, h_up, hr2]⟩
    · constructor <;> intro h <;> simp [retryDrive, h_up] at h

/-- C5 (witness): a single attempt that sees status 503 with 5 seconds
already elapsed exhausts the default budget of 3, and the driver
surfaces UploadFailed carrying the TryAgain failure of that attempt. -/
theorem c5_witness :
    isRetryableExc UploadExc.tryAgainExc = true ∧
    ∃ i p, ([(AttemptEvent.response 503, (5 : Nat))][i]? = some p ∧
      uploadOnce "http://pyro" p.1 = Except.error UploadExc.tryAgainExc ∧ 3 ≤ p.2 ∧
      retryAttempts "http://pyro" 3 [(AttemptEvent.response 503, 5)] = i + 1) := by
  have h := (c5_budget_exhaustion_last_failure "svc" "tok" "http://pyro" "http://pyro" 3
    [(AttemptEvent.response 503, 5)] UploadExc.tryAgainExc).2.1 (by decide)
  simpa using h

/-! ## Multipart packager (encode multipart formdata, patch.py 143-164) -/

/-- Lowercase hexadecimal digit, as produced by binascii.hexlify. -/
def hexDigitLower (n : Nat) : Nat :=
  if n < 10 then 48 + n else 87 + n

/-- binascii.hexlify: each input byte becomes two lowercase hex digit
bytes, high nibble first. -/
def hexlify (l : List Nat) : List Nat :=
  (l.map fun b => [hexDigitLower (b / 16 % 16), hexDigitLower (b % 16)]).flatten

/-- Multipart packager of the source: the boundary is the hexlified
form of the 16 bytes drawn from os.urandom, each part is the
percent-formatted disposition line followed by the octet-stream
content-type line, a blank line, the payload and CRLF, and the body
ends with the two-dash-wrapped boundary. Returns (content type, body)
exactly as the static method does. -/
def encodeMultipartFormdata (rnd : List Nat) (data : List (List Nat × List Nat)) :
    List Nat × List Nat :=
  let boundary := hexlify rnd
  let body :=
    ((data.map fun p =>
        (bytes "--" ++ boundary ++ bytes "\r\nContent-Disposition: form-data; name=\"" ++ p.1
          ++ bytes "\"; filename=\"" ++ p.1 ++ bytes "\"\r\n")
        ++ bytes "Content-Type: application/octet-stream\r\n\r\n"
        ++ p.2 ++ bytes "\r\n").flatten)
    ++ (bytes "--" ++ boundary ++ bytes "--")
  (bytes "multipart/form-data; boundary=" ++ boundary, body)

/-- Part template written the way the claim states it, with the four
splice points boundary, field, field, payload. -/
def specMultipartPart (boundary field payload : List Nat) : List Nat :=
  bytes "--" ++ boundary ++ bytes "\r\nContent-Disposition: form-data; name=\"" ++ field
    ++ bytes "\"; filename=\"" ++ field
    ++ bytes "\"\r\nContent-Type: application/octet-stream\r\n\r\n" ++ payload ++ bytes "\r\n"

/-- Body the claim describes: the parts concatenated in order followed
by the closing boundary marker with nothing after it. -/
def specMultipartBody (boundary : List Nat) (data : List (List Nat × List Nat)) : List Nat :=
  ((data.map fun p => specMultipartPart boundary p.1 p.2).flatten)
    ++ bytes "--" ++ boundary ++ bytes "--"

theorem bytes_ctype_split :
    bytes "\"\r\nContent-Type: application/octet-stream\r\n\r\n" =
      bytes "\"\r\n" ++ bytes "Content-Type: application/octet-stream\r\n\r\n" := by
  decide

theorem hexDigitLower_range (n : Nat) (h : n < 16) :
    (48 ≤ hexDigitLower n ∧ hexDigitLower n ≤ 57) ∨
      (97 ≤ hexDigitLower n ∧ hexDigitLower n ≤ 102) := by
  unfold hexDigitLower
  split <;> omega

theorem hexlify_length (l : List Nat) : (hexlify l).length = 2 * l.length := by
  induction l with
  | nil => rfl
  | cons a l ih =>
    simp only [hexlify, List.map_cons, List.flatten_cons] at ih ⊢
    simp [ih]
    omega

theorem hexlify_digits (l : List Nat) :
    ∀ c ∈ hexlify l, (48 ≤ c ∧ c ≤ 57) ∨ (97 ≤ c ∧ c ≤ 102) := by
  induction l with
  | nil => intro c hc; simp [hexlify] at hc
  | cons a l ih =>
    intro c hc
    simp only [hexlify, List.map_cons, List.flatten_cons, List.mem_append,
      List.mem_cons, List.mem_singleton] at hc
    rcases hc with (h1 | h1 | h1) | h2
    · exact h1 ▸ hexDigitLower_range _ (Nat.mod_lt _ (by omega))
    · exact h1 ▸ hexDigitLower_range _ (Nat.mod_lt _ (by omega))
    · simp at h1
    · exact ih c (by simpa [hexlify] using h2)

/-- C4: for every 16-byte random draw and every ordered field map, the
boundary is 32 ASCII lowercase hexadecimal characters, the body is
byte-exact the concatenation of the per-field template parts in the
order given followed by the closing boundary marker with no trailing
bytes, and the content type is the multipart header value carrying the
same boundary that frames the body. -/
theorem c4_multipart_exact (rnd : List Nat) (h16 : rnd.length = 16)
    (data : List (List Nat × List Nat)) :
    (hexlify rnd).length = 32 ∧
    (∀ c ∈ hexlify rnd, (48 ≤ c ∧ c ≤ 57) ∨ (97 ≤ c ∧ c ≤ 102)) ∧
    (encodeMultipartFormdata rnd data).2 = specMultipartBody (hexlify rnd) data ∧
    (encodeMultipartFormdata rnd data).1 =
      bytes "multipart/form-data; boundary=" ++ hexlify rnd := by
  refine ⟨by rw [hexlify_length, h16], hexlify_digits rnd, ?_, rfl⟩
  simp only [encodeMultipartFormdata, specMultipartBody, specMultipartPart,
    bytes_ctype_split, List.append_assoc]

/-- C4 (witness): instantiation at the 16-byte draw 0,...,15 and a
single profile field with a three-byte payload. -/
theorem c4_witness :
    (List.range 16).length = 16 ∧
    (hexlify (List.range 16)).length = 32 ∧
    (encodeMultipartFormdata (List.range 16) [(bytes "profile", [1, 2, 3])]).2 =
      specMultipartBody (hexlify (List.range 16)) [(bytes "profile", [1, 2, 3])] := by
  refine ⟨by decide, ?_, ?_⟩
  · exact (c4_multipart_exact (List.range 16) (by decide) [(bytes "profile", [1, 2, 3])]).1
  · exact (c4_multipart_exact (List.range 16) (by decide) [(bytes "profile", [1, 2, 3])]).2.2.1

/-! ## Query string (assemble url, patch.py 166-168, and the params
dict of export, patch.py 126-131; urllib.parse.urlencode uses
quote plus on str(key) and str(value)) -/

/-- Uppercase hexadecimal digit, as used by percent escapes. -/
def hexDigitUpper (n : Nat) : Nat :=
  if n < 10 then 48 + n else 55 + n

/-- Decimal digit bytes of a natural number, fuel driven. -/
def natBytesAux : Nat → Nat → List Nat
  | 0, _ => []
  | fuel + 1, n => if n < 10 then [48 + n] else natBytesAux fuel (n / 10) ++ [48 + n % 10]

/-- Byte string of str(n) for a nonnegative integer n. -/
def natBytes (n : Nat) : List Nat :=
  natBytesAux (n + 1) n

/-- Characters quote plus leaves unescaped: ASCII letters, digits,
underscore, dot, hyphen and tilde. -/
def isUrlSafeB (c : Nat) : Bool :=
  decide ((65 ≤ c ∧ c ≤ 90) ∨ (97 ≤ c ∧ c ≤ 122) ∨ (48 ≤ c ∧ c ≤ 57) ∨
    c = 95 ∨ c = 46 ∨ c = 45 ∨ c = 126)

/-- urllib.parse.quote plus over the bytes of a string: a space becomes
a plus sign, safe characters pass through, everything else becomes a
percent escape with two uppercase hexadecimal digits. -/
def quotePlusBytes (l : List Nat) : List Nat :=
  (l.map fun c =>
    if c = 32 then [43]
    else if isUrlSafeB c then [c]
    else [37, hexDigitUpper (c / 16 % 16), hexDigitUpper (c % 16)]).flatten

/-- urllib.parse.urlencode over an ordered list of key-value pairs:
quoted key, equals sign, quoted value, joined by ampersands. -/
def urlencode (ps : List (List Nat × List Nat)) : List Nat :=
  List.intercalate (bytes "&")
    (ps.map fun p => quotePlusBytes p.1 ++ bytes "=" ++ quotePlusBytes p.2)

/-- assemble url of the source: endpoint, question mark, encoded params. -/
def assembleUrl (endpoint : List Nat) (ps : List (List Nat × List Nat)) : List Nat :=
  endpoint ++ bytes "?" ++ urlencode ps

/-- The params dict built by export (patch.py 126-131), in insertion
order: name, spyName (the literal ddtrace), from, until. -/
def exportParams (service : List Nat) (startNs endNs : Nat) :
    List (List Nat × List Nat) :=
  [(bytes "name", service), (bytes "spyName", bytes "ddtrace"),
   (bytes "from", natBytes startNs), (bytes "until", natBytes endNs)]

/-- URL used by one export call. -/
def exportUrl (endpoint service : List Nat) (startNs endNs : Nat) : List Nat :=
  assembleUrl endpoint (exportParams service startNs endNs)

theorem quotePlusBytes_safe (l : List Nat) (h : ∀ c ∈ l, isUrlSafeB c = true) :
    quotePlusBytes l = l := by
  induction l with
  | nil => rfl
  | cons a l ih =>
    have ha : isUrlSafeB a = true := h a (List.mem_cons_self a l)
    have ha32 : ¬ a = 32 := by
      intro h32
      subst h32
      simp [isUrlSafeB] at ha
    simp only [quotePlusBytes, List.map_cons, List.flatten_cons, if_neg ha32, if_pos ha]
    have := ih fun c hc => h c (List.mem_cons_of_mem a hc)
    simp only [quotePlusBytes] at this
    simp [this]

theorem natBytesAux_digits (fuel : Nat) :
    ∀ n, ∀ c ∈ natBytesAux fuel n, 48 ≤ c ∧ c ≤ 57 := by
  induction fuel with
  | zero => intro n c hc; simp [natBytesAux] at hc
  | succ fuel ih =>
    intro n c hc
    by_cases hn : n < 10
    · simp [natBytesAux, hn] at hc
      omega
    · simp only [natBytesAux, if_neg hn, List.mem_append, List.mem_singleton] at hc
      rcases hc with hc | hc
      · exact ih (n / 10) c hc
      · subst hc
        have := Nat.mod_lt n (show 0 < 10 by omega)
        omega

theorem natBytes_safe (n : Nat) : ∀ c ∈ natBytes n, isUrlSafeB c = true := by
  intro c hc
  have := natBytesAux_digits (n + 1) n c hc
  simp [isUrlSafeB]
  omega

/-- C6: for every export call the request URL is the endpoint, a
question mark, and the urlencoding of exactly the four parameters name,
spyName (the fixed literal ddtrace), from and until in that order; for
a service name of safe characters the query string is literally
name=service&spyName=ddtrace&from=start&until=end, and the spec example
with helloworld, 1000 and 2000 evaluates to the expected URL. -/
theorem c6_query_params (endpoint service : List Nat) (f u : Nat)
    (hsafe : ∀ c ∈ service, isUrlSafeB c = true) :
    exportUrl endpoint service f u =
      endpoint ++ bytes "?" ++ urlencode
        [(bytes "name", service), (bytes "spyName", bytes "ddtrace"),
         (bytes "from", natBytes f), (bytes "until", natBytes u)] ∧
    exportUrl endpoint service f u =
      endpoint ++ bytes "?name=" ++ service ++ bytes "&spyName=ddtrace&from=" ++
        natBytes f ++ bytes "&until=" ++ natBytes u ∧
    exportUrl (bytes "http://pyro/ingest") (bytes "helloworld") 1000 2000 =
      bytes "http://pyro/ingest?name=helloworld&spyName=ddtrace&from=1000&until=2000" := by
  refine ⟨rfl, ?_, by decide⟩
  have hq : quotePlusBytes service = service := quotePlusBytes_safe service hsafe
  have hf : quotePlusBytes (natBytes f) = natBytes f :=
    quotePlusBytes_safe _ (natBytes_safe f)
  have hu : quotePlusBytes (natBytes u) = natBytes u :=
    quotePlusBytes_safe _ (natBytes_safe u)
  have hn : quotePlusBytes (bytes "name") = bytes "name" := by decide
  have hs : quotePlusBytes (bytes "spyName") = bytes "spyName" := by decide
  have hd : quotePlusBytes (bytes "ddtrace") = bytes "ddtrace" := by decide
  have hfr : quotePlusBytes (bytes "from") = bytes "from" := by decide
  have hun : quotePlusBytes (bytes "until") = bytes "until" := by decide
  have e1 : bytes "?name=" = bytes "?" ++ (bytes "name" ++ bytes "=") := by decide
  have e2 : bytes "&spyName=ddtrace&from=" =
      bytes "&" ++ (bytes "spyName" ++ bytes "=" ++ bytes "ddtrace") ++
        (bytes "&" ++ (bytes "from" ++ bytes "=")) := by decide
  have e3 : bytes "&until=" = bytes "&" ++ (bytes "until" ++ bytes "=") := by decide
  rw [e1, e2, e3]
  simp [exportUrl, assembleUrl, urlencode, exportParams, List.intercalate,
    List.intersperse, hq, hf, hu, hn, hs, hd, hfr, hun, List.append_assoc]

/-- C6 (witness): the safe-service form of the URL at concrete inputs. -/
theorem c6_witness :
    exportUrl (bytes "http://p") (bytes "helloworld") 1 2 =
      bytes "http://p" ++ bytes "?name=" ++ bytes "helloworld" ++
        bytes "&spyName=ddtrace&from=" ++ natBytes 1 ++ bytes "&until=" ++ natBytes 2 := by
  exact (c6_query_params (bytes "http://p") (bytes "helloworld") 1 2 (by decide)).2.1

/-! ## Gzip codec.

The compression step of export (patch.py 115-117) writes the serialized
profile into gzip.GzipFile and closes the stream before reading the
bytes. The gzip codec itself is the Python standard library, not code
under src, so it is modelled from the specification here: the
Compressor returns the gzip-compressed bytes of its input, and the
claim asks that standard gzip decompression inverts it. The model
follows RFC 1952 framing (header, deflate stream, CRC-32 and length
trailer) with RFC 1951 stored blocks as the deflate stream, and the
decompressor is a standard gzip reader for such streams that verifies
both trailer fields. -/

/-- One bit step of the reflected CRC-32 with polynomial EDB88320. -/
def crc32Bit (c : Nat) : Nat :=
  if c % 2 = 1 then (c / 2) ^^^ 3988292384 else c / 2

/-- Iterate the CRC bit step. -/
def iterBits : Nat → Nat → Nat
  | 0, c => c
  | n + 1, c => iterBits n (crc32Bit c)

/-- Modelled from the spec: absorb one byte into a CRC-32 state. -/
def crc32Update (c b : Nat) : Nat :=
  iterBits 8 (c ^^^ (b % 256))

/-- Modelled from the spec: CRC-32 of a byte string, as stored in the
gzip trailer. -/
def crc32 (l : List Nat) : Nat :=
  (l.foldl crc32Update 4294967295) ^^^ 4294967295

/-- Two little-endian bytes of a 16-bit value. -/
def le16 (n : Nat) : List Nat :=
  [n % 256, n / 256 % 256]

/-- Four little-endian bytes of a 32-bit value. -/
def le32 (n : Nat) : List Nat :=
  [n % 256, n / 256 % 256, n / 65536 % 256, n / 16777216 % 256]

/-- Split a byte string into stored-block payloads of at most 65535
bytes; the fuel bounds the recursion depth. -/
def chunksOfAux : Nat → List Nat → List (List Nat)
  | 0, _ => []
  | _ + 1, [] => []
  | fuel + 1, l => l.take 65535 :: chunksOfAux fuel (l.drop 65535)

/-- Stored-block payload chunks of a byte string. -/
def chunksOf (l : List Nat) : List (List Nat) :=
  chunksOfAux l.length l

/-- Modelled from the spec: RFC 1951 deflate stream made of stored
blocks. Each block is one header byte (BFINAL in bit 0, BTYPE 00 and
padding zero bits), LEN and its complement NLEN little-endian, then the
raw payload. An empty input is one final block of length zero. -/
def storedBlocks : List (List Nat) → List Nat
  | [] => [1, 0, 0, 255, 255]
  | c :: cs =>
    (if cs.isEmpty then 1 else 0) ::
      (le16 c.length ++ le16 (65535 - c.length) ++ c ++
        (if cs.isEmpty then [] else storedBlocks cs))

/-- Modelled from the spec: the Compressor, returning the gzip member
for a byte string: the ten-byte RFC 1952 header (gzip magic,
deflate method, empty flags, zero mtime, unknown OS), the deflate
stream, then the CRC-32 and the input length, both little-endian. -/
def gzipCompress (data : List Nat) : List Nat :=
  [31, 139, 8, 0, 0, 0, 0, 0, 0, 255] ++ storedBlocks (chunksOf data) ++
    le32 (crc32 data) ++ le32 data.length

/-- Modelled from the spec: standard inflate for stored-block deflate
streams. Reads blocks until the final one, returning the concatenated
payloads and the unread remainder; rejects a malformed block header,
an NLEN that is not the complement of LEN, a truncated payload, and a
compressed block type. -/
def inflateAux : Nat → List Nat → Option (List Nat × List Nat)
  | 0, _ => none
  | fuel + 1, bfinal :: l0 :: l1 :: n0 :: n1 :: rest =>
    if (bfinal = 0 ∨ bfinal = 1) ∧
        n0 + 256 * n1 = 65535 - (l0 + 256 * l1) ∧
        l0 + 256 * l1 ≤ rest.length then
      if bfinal = 1 then
        some (rest.take (l0 + 256 * l1), rest.drop (l0 + 256 * l1))
      else
        match inflateAux fuel (rest.drop (l0 + 256 * l1)) with
        | some (more, r) => some (rest.take (l0 + 256 * l1) ++ more, r)
        | none => none
    else none
  | _ + 1, _ => none

/-- Modelled from the spec: standard gzip decompression of a member
whose deflate stream uses stored blocks: checks the header, inflates,
and verifies the CRC-32 and length trailer against the output. -/
def gunzip (s : List Nat) : Option (List Nat) :=
  match s with
  | id1 :: id2 :: cm :: flg :: _m0 :: _m1 :: _m2 :: _m3 :: _xfl :: _os :: rest =>
    if id1 = 31 ∧ id2 = 139 ∧ cm = 8 ∧ flg = 0 then
      match inflateAux rest.length rest with
      | some (payload, c0 :: c1 :: c2 :: c3 :: i0 :: i1 :: i2 :: i3 :: []) =>
        if c0 + 256 * c1 + 65536 * c2 + 16777216 * c3 = crc32 payload % 4294967296 ∧
            i0 + 256 * i1 + 65536 * i2 + 16777216 * i3 = payload.length % 4294967296 then
          some payload
        else none
      | _ => none
    else none
  | _ => none

theorem chunksOfAux_flatten :
    ∀ (fuel : Nat) (l : List Nat), l.length ≤ fuel → (chunksOfAux fuel l).flatten = l := by
  intro fuel
  induction fuel with
  | zero =>
    intro l h
    have : l = [] := List.length_eq_zero.mp (by omega)
    subst this
    rfl
  | succ fuel ih =>
    intro l h
    cases l with
    | nil => rfl
    | cons a l =>
      simp only [chunksOfAux, List.flatten_cons]
      rw [ih ((a :: l).drop 65535)
        (by rw [List.length_drop]; simp only [List.length_cons] at h ⊢; omega)]
      exact List.take_append_drop 65535 (a :: l)

theorem chunksOfAux_mem (fuel : Nat) :
    ∀ (l : List Nat), ∀ c ∈ chunksOfAux fuel l, c ≠ [] ∧ c.length ≤ 65535 := by
  induction fuel with
  | zero => intro l c hc; simp [chunksOfAux] at hc
  | succ fuel ih =>
    intro l c hc
    cases l with
    | nil => simp [chunksOfAux] at hc
    | cons a l =>
      simp only [chunksOfAux, List.mem_cons] at hc
      rcases hc with hc | hc
      · subst hc
        constructor
        · have : 0 < ((a :: l).take 65535).length := by
            rw [List.length_take]
            simp
          exact List.length_pos.mp this
        · rw [List.length_take]
          exact Nat.min_le_left _ _
      · exact ih _ c hc

theorem storedBlocks_length (cs : List (List Nat)) :
    1 ≤ (storedBlocks cs).length ∧ cs.length ≤ (storedBlocks cs).length := by
  induction cs with
  | nil => simp [storedBlocks]
  | cons c cs ih =>
    cases cs with
    | nil => simp [storedBlocks, le16]
    | cons c2 cs2 =>
      obtain ⟨ih1, ih2⟩ := ih
      have h : storedBlocks (c :: c2 :: cs2) =
          0 :: (le16 c.length ++ le16 (65535 - c.length) ++ c ++ storedBlocks (c2 :: cs2)) := by
        simp [storedBlocks]
      rw [h]
      simp only [List.length_cons, List.length_append, le16] at ih2 ⊢
      simp only [List.length_cons, List.length_nil]
      omega

theorem inflate_storedBlocks :
    ∀ (cs : List (List Nat)) (fuel : Nat) (trailer : List Nat),
      (∀ c ∈ cs, c ≠ [] ∧ c.length ≤ 65535) →
      1 ≤ fuel → cs.length ≤ fuel →
      inflateAux fuel (storedBlocks cs ++ trailer) = some (cs.flatten, trailer) := by
  intro cs
  induction cs with
  | nil =>
    intro fuel trailer _ h1 _
    obtain ⟨f, rfl⟩ : ∃ f, fuel = f + 1 := ⟨fuel - 1, by omega⟩
    simp [storedBlocks, inflateAux]
  | cons c cs ih =>
    intro fuel trailer hok h1 hlen
    obtain ⟨f, rfl⟩ : ∃ f, fuel = f + 1 := ⟨fuel - 1, by omega⟩
    have hc := hok c (List.mem_cons_self c cs)
    have hcl : c.length ≤ 65535 := hc.2
    have hparse : c.length % 256 + 256 * (c.length / 256 % 256) = c.length := by omega
    cases cs with
    | nil =>
      have hshape : storedBlocks [c] ++ trailer =
          1 :: (c.length % 256) :: (c.length / 256 % 256) ::
            ((65535 - c.length) % 256) :: ((65535 - c.length) / 256 % 256) ::
            (c ++ trailer) := by
        simp [storedBlocks, le16]
      rw [hshape]
      have hcond : ((1 : Nat) = 0 ∨ True) ∧
          (65535 - c.length) % 256 + 256 * ((65535 - c.length) / 256 % 256) =
            65535 - (c.length % 256 + 256 * (c.length / 256 % 256)) ∧
          c.length % 256 + 256 * (c.length / 256 % 256) ≤ (c ++ trailer).length := by
        refine ⟨Or.inr trivial, ?_, ?_⟩
        · omega
        · rw [List.length_append]; omega
      simp only [inflateAux]
      rw [if_pos hcond, if_pos trivial]
      rw [hparse, List.take_left, List.drop_left]
      simp
    | cons c2 cs2 =>
      have hshape : storedBlocks (c :: c2 :: cs2) ++ trailer =
          0 :: (c.length % 256) :: (c.length / 256 % 256) ::
            ((65535 - c.length) % 256) :: ((65535 - c.length) / 256 % 256) ::
            (c ++ (storedBlocks (c2 :: cs2) ++ trailer)) := by
        simp [storedBlocks, le16]
      rw [hshape]
      have hcond : (True ∨ (0 : Nat) = 1) ∧
          (65535 - c.length) % 256 + 256 * ((65535 - c.length) / 256 % 256) =
            65535 - (c.length % 256 + 256 * (c.length / 256 % 256)) ∧
          c.length % 256 + 256 * (c.length / 256 % 256) ≤
            (c ++ (storedBlocks (c2 :: cs2) ++ trailer)).length := by
        refine ⟨Or.inl trivial, ?_, ?_⟩
        · omega
        · rw [List.length_append]; omega
      simp only [inflateAux]
      rw [if_pos hcond, if_neg (by omega : ¬ (0 : Nat) = 1)]
      rw [hparse, List.take_left, List.drop_left]
      have hrec := ih f trailer
        (fun d hd => hok d (List.mem_cons_of_mem c hd))
        (by simp only [List.length_cons] at hlen; omega)
        (by simp only [List.length_cons] at hlen ⊢; omega)
      rw [hrec]
      simp

theorem readLE32_mod (a : Nat) :
    a % 256 + 256 * (a / 256 % 256) + 65536 * (a / 65536 % 256) +
      16777216 * (a / 16777216 % 256) = a % 4294967296 := by
  omega

/-- C7: gzip-decompressing the Compressor output of any byte string,
the empty one included, yields exactly that byte string back: the
compression step of the export pipeline is inverted by standard gzip
decompression. -/
theorem c7_gzip_roundtrip (data : List Nat) :
    gunzip (gzipCompress data) = some data := by
  have hflat : (chunksOf data).flatten = data :=
    chunksOfAux_flatten data.length data (Nat.le_refl _)
  have hmem : ∀ c ∈ chunksOf data, c ≠ [] ∧ c.length ≤ 65535 :=
    chunksOfAux_mem data.length data
  have hsb := storedBlocks_length (chunksOf data)
  have hshape : gzipCompress data =
      31 :: 139 :: 8 :: 0 :: 0 :: 0 :: 0 :: 0 :: 0 :: 255 ::
        (storedBlocks (chunksOf data) ++ (le32 (crc32 data) ++ le32 data.length)) := by
    simp [gzipCompress, List.append_assoc]
  rw [hshape]
  have hinf : inflateAux
      (storedBlocks (chunksOf data) ++ (le32 (crc32 data) ++ le32 data.length)).length
      (storedBlocks (chunksOf data) ++ (le32 (crc32 data) ++ le32 data.length)) =
      some ((chunksOf data).flatten, le32 (crc32 data) ++ le32 data.length) := by
    apply inflate_storedBlocks (chunksOf data) _ _ hmem
    · rw [List.length_append]; omega
    · rw [List.length_append]; omega
  simp only [gunzip, if_pos (by omega : (31 : Nat) = 31 ∧ (139 : Nat) = 139 ∧
    (8 : Nat) = 8 ∧ (0 : Nat) = 0)]
  rw [hinf, hflat]
  simp only [le32, List.cons_append, List.nil_append]
  simp [readLE32_mod]

/-! ## Sample type configuration (patch.py 28-69): the module-level dict
and its json.dumps serialization, encoded once at import time. -/

/-- One entry of the SAMPLE TYPE CONFIG dict. -/
structure SampleTypeSpec where
  units : String
  aggregation : String
  display_name : String
  sampled : Bool
deriving DecidableEq

/-- The module-level dict, in source insertion order; the commented-out
exception-samples and alloc-samples entries are absent. -/
def SAMPLE_TYPE_CONFIG : List (String × SampleTypeSpec) :=
  [("cpu-time",
    { units := "samples", aggregation := "sum", display_name := "cpu_time", sampled := true }),
   ("wall-time",
    { units := "samples", aggregation := "sum", display_name := "wall_time", sampled := true }),
   ("alloc-space",
    { units := "bytes", aggregation := "sum", display_name := "alloc_space", sampled := true }),
   ("heap-space",
    { units := "bytes", aggregation := "average", display_name := "heap_space",
      sampled := false })]

/-- json.dumps of one entry value, with the default item and key
separators of json.dumps. -/
def dumpSampleTypeSpec (t : SampleTypeSpec) : String :=
  "\x7b\"units\": \"" ++ t.units ++ "\", \"aggregation\": \"" ++ t.aggregation ++
    "\", \"display-name\": \"" ++ t.display_name ++ "\", \"sampled\": " ++
    (if t.sampled then "true" else "false") ++ "\x7d"

/-- json.dumps of the whole dict. -/
def dumpSampleTypeConfig (l : List (String × SampleTypeSpec)) : String :=
  "\x7b" ++
    String.intercalate ", " (l.map fun p => "\"" ++ p.1 ++ "\": " ++ dumpSampleTypeSpec p.2) ++
    "\x7d"

/-- SAMPLE TYPE CONFIG JSON: the serialized dict encoded to bytes, one
module-level constant (patch.py line 69). -/
def SAMPLE_TYPE_CONFIG_JSON : List Nat :=
  bytes (dumpSampleTypeConfig SAMPLE_TYPE_CONFIG)

/-! ## Export orchestration (export, patch.py 107-141) -/

/-- The data dict of export (patch.py 118-121), in insertion order:
the gzip-compressed profile under the key profile, then the constant
serialized sample type configuration. -/
def exportParts (compressed : List Nat) : List (List Nat × List Nat) :=
  [(bytes "profile", compressed), (bytes "sample_type_config", SAMPLE_TYPE_CONFIG_JSON)]

/-- An assembled HTTP request: URL, ordered headers, body. -/
structure HTTPRequest where
  url : List Nat
  headers : List (List Nat × List Nat)
  body : List Nat
deriving DecidableEq

/-- The request assembled by one export call (patch.py 107-139): the
profile is compressed, packaged with the sample type configuration,
the query parameters are attached to the endpoint, and the headers are
the packager content type plus an Authorization header that is always
present with the value Bearer followed by the configured token. -/
def exportRequest (endpoint service token rnd serializedProfile : List Nat)
    (startNs endNs : Nat) : HTTPRequest :=
  { url := exportUrl endpoint service startNs endNs
    headers :=
      [(bytes "Content-Type",
        (encodeMultipartFormdata rnd (exportParts (gzipCompress serializedProfile))).1),
       (bytes "Authorization", bytes "Bearer " ++ token)]
    body := (encodeMultipartFormdata rnd (exportParts (gzipCompress serializedProfile))).2 }

/-- C2 (counterexample): with no token configured the source still puts
an Authorization header into the headers dict, with the value Bearer
followed by nothing, so the assembled request does not omit the header. -/
theorem c2_counterexample :
    ((exportRequest (bytes "http://pyro") (bytes "svc") [] (List.range 16) [] 0 0).headers.map
        Prod.fst) = [bytes "Content-Type", bytes "Authorization"] ∧
    (exportRequest (bytes "http://pyro") (bytes "svc") [] (List.range 16) [] 0 0).headers.lookup
        (bytes "Authorization") = some (bytes "Bearer ") := by
  refine ⟨rfl, by decide⟩

/-- C2 (amended): for every export call the assembled request carries
an Authorization header whose value is Bearer followed by the
configured token; when no token is configured the header is still
present with the bare value Bearer followed by a space, rather than
being omitted. -/
theorem c2_auth_header (endpoint service token rnd profile : List Nat) (f u : Nat) :
    (exportRequest endpoint service token rnd profile f u).headers.lookup
        (bytes "Authorization") = some (bytes "Bearer " ++ token) ∧
    (exportRequest endpoint service [] rnd profile f u).headers.lookup
        (bytes "Authorization") = some (bytes "Bearer ") := by
  have hne : (bytes "Authorization" == bytes "Content-Type") = false := by decide
  have heq : (bytes "Authorization" == bytes "Authorization") = true := by decide
  constructor
  · simp [exportRequest, List.lookup, hne, heq]
  · simp [exportRequest, List.lookup, hne, heq]

/-- C10: the multipart body of every export call is built from exactly
two parts in this fixed order, the profile part with the compressed
profile bytes and the sample type config part with the one module-level
serialized JSON constant; that constant is the json.dumps encoding of
the dict whose keys are exactly cpu-time, wall-time, alloc-space and
heap-space. -/
theorem c10_fixed_parts (endpoint service token rnd serialized : List Nat) (f u : Nat) :
    exportParts (gzipCompress serialized) =
      [(bytes "profile", gzipCompress serialized),
       (bytes "sample_type_config", SAMPLE_TYPE_CONFIG_JSON)] ∧
    (exportRequest endpoint service token rnd serialized f u).body =
      (encodeMultipartFormdata rnd (exportParts (gzipCompress serialized))).2 ∧
    SAMPLE_TYPE_CONFIG.map Prod.fst = ["cpu-time", "wall-time", "alloc-space", "heap-space"] ∧
    SAMPLE_TYPE_CONFIG_JSON =
      bytes ("\x7b\"cpu-time\": \x7b\"units\": \"samples\", \"aggregation\": \"sum\", " ++
        "\"display-name\": \"cpu_time\", \"sampled\": true\x7d, " ++
        "\"wall-time\": \x7b\"units\": \"samples\", \"aggregation\": \"sum\", " ++
        "\"display-name\": \"wall_time\", \"sampled\": true\x7d, " ++
        "\"alloc-space\": \x7b\"units\": \"bytes\", \"aggregation\": \"sum\", " ++
        "\"display-name\": \"alloc_space\", \"sampled\": true\x7d, " ++
        "\"heap-space\": \x7b\"units\": \"bytes\", \"aggregation\": \"average\", " ++
        "\"display-name\": \"heap_space\", \"sampled\": false\x7d\x7d") := by
  refine ⟨rfl, rfl, rfl, by decide⟩

/-- Result of export as seen by the host profiler: the parent class
result pair is returned on success, and the failure of the retry driver
propagates otherwise; none when the attempt trace is too short. -/
def exportCall {α β : Type} (url : String) (budget : Nat) (p : α) (l : β)
    (tr : List (AttemptEvent × Nat)) : Option (Except RetryResult (α × β)) :=
  (retryDrive url budget tr).map fun r =>
    match r with
    | RetryResult.success => Except.ok (p, l)
    | f => Except.error f

/-- C8: whatever the upload does, every pair export returns is exactly
the (profile, libraries) pair produced by the parent exporter before
the upload, and on a successful upload that pair is returned unchanged. -/
theorem c8_passthrough {α β : Type} (url : String) (budget : Nat) (p : α) (l : β)
    (tr : List (AttemptEvent × Nat)) :
    (∀ q, exportCall url budget p l tr = some (Except.ok q) → q = (p, l)) ∧
    (retryDrive url budget tr = some RetryResult.success →
      exportCall url budget p l tr = some (Except.ok (p, l))) := by
  constructor
  · intro q h
    unfold exportCall at h
    rcases hr : retryDrive url budget tr with _ | r
    · rw [hr] at h; simp at h
    · rw [hr] at h
      cases r with
      | success =>
        simp at h
        exact h.symm
      | raised e => simp at h
      | uploadFailed e => simp at h
  · intro h
    unfold exportCall
    rw [h]
    rfl

/-- C8 (witness): with a first attempt answered by status 200 the call
returns the parent pair unchanged. -/
theorem c8_witness :
    exportCall "http://pyro" 3 (1 : Nat) "libs" [(AttemptEvent.response 200, 0)] =
      some (Except.ok (1, "libs")) := by
  exact (c8_passthrough "http://pyro" 3 1 "libs" [(AttemptEvent.response 200, 0)]).2 rfl

/-! ## Exporter installer (patch ddtrace to pyroscope, patch.py 192-204) -/

/-- Process state touched by the installer: the environment toggle for
memory profiling and the profiler class attribute holding the
default-exporter factory. -/
structure PatchState where
  dd_profiling_memory_enabled : Option String
  build_default_exporters : Unit → List ExporterConfig

/-- The installer: optionally writes the environment toggle, then
replaces the profiler class factory with one returning a single
exporter built from the given service name, token and endpoint. -/
def patch_ddtrace_to_pyroscope (service_name token endpoint : String)
    (enable_memory_profiling : Bool) (st : PatchState) : PatchState :=
  let st1 :=
    if enable_memory_profiling then st
    else { st with dd_profiling_memory_enabled := some "False" }
  { st1 with build_default_exporters := fun _ => [mkExporter service_name token endpoint] }

/-- C9: after the installer runs, the default-exporter factory returns
a single-element list whose only element is the exporter configured
with exactly the given service name, token and endpoint (and the
constructor defaults), for every prior state and either setting of the
memory-profiling flag. -/
theorem c9_installer (service_name token endpoint : String) (m : Bool) (st : PatchState) :
    (patch_ddtrace_to_pyroscope service_name token endpoint m st).build_default_exporters () =
      [{ service_name := service_name, token := token, endpoint := endpoint,
         max_retry_delay := 3, enable_code_provenance := false }] := by
  cases m <;> rfl

end BkPyro
